import Mathlib

/-!
Shallow embedding of the resume-analysis core (section classifier, skill
extractor, feedback analyzer) and proofs about it.

Strings are modelled as Lean `String`s; character-level work happens on
`String.data : List Char`.  Python semantics captured by the helpers:

* `s.lower()`   : ASCII lowering (`Char.toLower`); the Korean alphabet has
  no case, so ASCII lowering agrees with Python on every string this
  code base manipulates.
* `s.strip()`   : drop ASCII whitespace at both ends.
* `a in b`      : substring containment.
* `len(s)`      : code-point count, i.e. `s.data.length`.
* Python `re`   : each concrete pattern of the source is compiled by hand
  into a small continuation-passing matcher (`pLit`, `pWS`, `pDot`,
  `pAlts`, `pSearch`); `\s` is ASCII whitespace, `.` is any char except
  newline, and word characters (for boundary assertions) are ASCII
  alphanumerics, underscore and Hangul syllables, which covers every
  character class occurring in the patterns and inputs of this code base.
* Python floats : exact rationals (`Rat`).
-/

/-- Python whitespace class (ASCII part of `\s` and of `str.strip`). -/
def isWSc (c : Char) : Bool :=
  c = ' ' || c = '\t' || c = '\n' || c = '\r' || c = '\x0b' || c = '\x0c'

/-- Python ASCII alphanumerics, used by the skill extractor lookarounds
`(?<![a-zA-Z0-9])` and `(?![a-zA-Z0-9])`. -/
def isAlnumAscii (c : Char) : Bool :=
  ('a' ≤ c && c ≤ 'z') || ('A' ≤ c && c ≤ 'Z') || ('0' ≤ c && c ≤ '9')

/-- Hangul syllable block (the char class `[가-힣]` of the source). -/
def isHangul (c : Char) : Bool :=
  '가' ≤ c && c ≤ '힣'

/-- Python `\w` restricted to the character classes used in this code base
(ASCII alphanumerics, underscore, Hangul syllables). -/
def isWordChar (c : Char) : Bool :=
  isAlnumAscii c || c = '_' || isHangul c

/-- `p` is a leading run of `s` (list-level prefix test). -/
def startsWithCL : List Char → List Char → Bool
  | [], _ => true
  | _ :: _, [] => false
  | p :: ps, c :: cs => p == c && startsWithCL ps cs

/-- Substring containment on char lists (Python `needle in hay`;
the empty needle is contained in everything, as in Python). -/
def containsCL (needle : List Char) : List Char → Bool
  | [] => startsWithCL needle []
  | c :: t => startsWithCL needle (c :: t) || containsCL needle t

/-- Python `needle in hay` on strings. -/
def inStr (needle hay : String) : Bool :=
  containsCL needle.data hay.data

/-- Python `str.lower()` (ASCII; Korean text is caseless). -/
def toLowerStr (s : String) : String :=
  String.mk (s.data.map Char.toLower)

/-- Python `str.strip()` on char lists. -/
def stripChars (l : List Char) : List Char :=
  ((l.dropWhile isWSc).reverse.dropWhile isWSc).reverse

/-- Python `str.strip()` on strings. -/
def stripStr (s : String) : String :=
  String.mk (stripChars s.data)

/-- Python `"\n".join(lines)`. -/
def joinLines : List String → String
  | [] => ""
  | [x] => x
  | x :: xs => x ++ "\n" ++ joinLines xs

/-! ## src/analyzer/section_classifier.py -/

/-- `SectionType` enum of `section_classifier.py`. -/
inductive SectionType where
  | contact
  | summary
  | experience
  | education
  | skills
  | projects
  | certifications
  | unknown
  deriving DecidableEq

namespace SectionClassifier

/-- `SectionClassifier.SECTION_KEYWORDS`, in dict insertion order
(Python dicts preserve insertion order, so this order is the priority
order of `classify`). -/
def SECTION_KEYWORDS : List (SectionType × List String) :=
  [ (SectionType.contact,
      ["contact", "personal information", "연락처", "인적사항", "personal details"]),
    (SectionType.summary,
      ["summary", "professional summary", "objective", "career objective",
       "profile", "about", "자기소개", "요약", "소개"]),
    (SectionType.experience,
      ["experience", "work experience", "professional experience", "employment",
       "employment history", "work history", "career history", "경력",
       "경력사항", "직무경험"]),
    (SectionType.education,
      ["education", "academic", "academic background", "educational background",
       "학력", "학력사항"]),
    (SectionType.skills,
      ["skills", "technical skills", "core competencies", "competencies",
       "technologies", "tech stack", "기술", "기술스택", "보유기술", "스킬"]),
    (SectionType.projects,
      ["projects", "personal projects", "프로젝트"]),
    (SectionType.certifications,
      ["certifications", "certificates", "licenses", "자격증"]) ]

/-- `SectionClassifier.classify`: lowercase and strip, then first keyword
containment match in registry order wins; `unknown` if none match. -/
def classify (text : String) : SectionType :=
  let text_lower := stripStr (toLowerStr text)
  match SECTION_KEYWORDS.find? (fun p => p.2.any (fun kw => inStr kw text_lower)) with
  | some p => p.1
  | none => SectionType.unknown

/-- One entry of the list returned by `classify_document`. -/
structure Section where
  type : SectionType
  content : String
  deriving DecidableEq

/-- Building one output dict: content lines are joined with a newline and
stripped (`"\n".join(current_content).strip()`). -/
def flushSection (t : SectionType) (content : List String) : Section :=
  ⟨t, stripStr (joinLines content)⟩

/-- The loop of `SectionClassifier.classify_document`, with the loop state
(`current_section`, `current_content`) made explicit.  After the loop the
last section is flushed only when its content list is non-empty
(`if current_section is not None and current_content`). -/
def classifyDocGo : Option SectionType → List String → List String → List Section
  | cur, content, [] =>
    match cur with
    | some t => if content.isEmpty then [] else [flushSection t content]
    | none => []
  | cur, content, line :: rest =>
    let ls := stripStr line
    if ls = "" ∧ cur = none then
      classifyDocGo cur content rest
    else
      let st := classify ls
      if st ≠ SectionType.unknown then
        (match cur with
         | some t => [flushSection t content]
         | none => []) ++ classifyDocGo (some st) [] rest
      else
        match cur with
        | some _ => classifyDocGo cur (content ++ [line]) rest
        | none => classifyDocGo cur content rest

/-- `SectionClassifier.classify_document`. -/
def classify_document (lines : List String) : List Section :=
  classifyDocGo none [] lines

/-- Unfolding equation of the loop on a cons input (the `let`s of the
source inlined). -/
theorem classifyDocGo_cons (cur : Option SectionType) (content : List String)
    (line : String) (rest : List String) :
    classifyDocGo cur content (line :: rest) =
      (if stripStr line = "" ∧ cur = none then classifyDocGo cur content rest
       else if classify (stripStr line) ≠ SectionType.unknown then
         (match cur with
          | some t => [flushSection t content]
          | none => []) ++ classifyDocGo (some (classify (stripStr line))) [] rest
       else
         match cur with
         | some _ => classifyDocGo cur (content ++ [line]) rest
         | none => classifyDocGo cur content rest) := rfl

/-- Helper for C1/C2: the empty line never classifies as a header. -/
theorem classify_empty_unknown : classify "" = SectionType.unknown := by decide

/-- Helper for C1: a line that classifies as a header does not strip to
the empty string. -/
theorem stripStr_ne_empty_of_header (h : String)
    (hh : classify (stripStr h) ≠ SectionType.unknown) : stripStr h ≠ "" := by
  intro he
  rw [he] at hh
  exact hh classify_empty_unknown

/-- Helper for C2: while no section is open, lines that do not classify
as headers leave the loop state untouched, so a run of them at the front
of the remaining input can be dropped. -/
theorem classifyDocGo_skip_unknown :
    ∀ (pre content rest : List String),
      (∀ l ∈ pre, classify (stripStr l) = SectionType.unknown) →
      classifyDocGo none content (pre ++ rest) = classifyDocGo none content rest := by
  intro pre
  induction pre with
  | nil => intro content rest _; rfl
  | cons line pre ih =>
    intro content rest hall
    have hline := hall line (List.mem_cons_self _ _)
    have hpre : ∀ l ∈ pre, classify (stripStr l) = SectionType.unknown :=
      fun l hl => hall l (List.mem_cons_of_mem _ hl)
    show classifyDocGo none content (line :: (pre ++ rest)) = _
    rw [classifyDocGo_cons]
    by_cases hempty : stripStr line = "" ∧ (none : Option SectionType) = none
    · rw [if_pos hempty]
      exact ih content rest hpre
    · rw [if_neg hempty, if_neg (by simp [hline])]
      exact ih content rest hpre

/-- Helper for C1: while a section is open, a run of non-header lines is
moved wholesale into the accumulated content. -/
theorem classifyDocGo_body (t : SectionType) :
    ∀ (body content rest : List String),
      (∀ l ∈ body, classify (stripStr l) = SectionType.unknown) →
      classifyDocGo (some t) content (body ++ rest) =
        classifyDocGo (some t) (content ++ body) rest := by
  intro body
  induction body with
  | nil =>
    intro content rest _
    rw [List.append_nil]
    rfl
  | cons line body ih =>
    intro content rest hall
    have hline := hall line (List.mem_cons_self _ _)
    have hbody : ∀ l ∈ body, classify (stripStr l) = SectionType.unknown :=
      fun l hl => hall l (List.mem_cons_of_mem _ hl)
    show classifyDocGo (some t) content (line :: (body ++ rest)) = _
    rw [classifyDocGo_cons]
    rw [if_neg (by simp), if_neg (by simp [hline])]
    exact (ih (content ++ [line]) rest hbody).trans
      (by rw [List.append_assoc, List.singleton_append])

/-- Helper for C1: a header line at the start opens a fresh empty
section. -/
theorem classifyDocGo_header_start (h : String) (rest : List String)
    (hh : classify (stripStr h) ≠ SectionType.unknown) :
    classifyDocGo none [] (h :: rest) =
      classifyDocGo (some (classify (stripStr h))) [] rest := by
  rw [classifyDocGo_cons]
  rw [if_neg (fun hc => stripStr_ne_empty_of_header h hh hc.1), if_pos hh]
  rfl

/-- Helper for C1: a header line flushes the open section (header line
excluded from its content) and opens a fresh one. -/
theorem classifyDocGo_header_flush (t : SectionType) (content : List String)
    (h2 : String) (rest2 : List String)
    (hh2 : classify (stripStr h2) ≠ SectionType.unknown) :
    classifyDocGo (some t) content (h2 :: rest2) =
      flushSection t content :: classifyDocGo (some (classify (stripStr h2))) [] rest2 := by
  rw [classifyDocGo_cons]
  rw [if_neg (by simp), if_pos hh2]
  rfl

end SectionClassifier

open SectionClassifier in
/-- C1 counterexample: on the spec scenario
`classify_document(["Work Experience","Dev at X","","Education","BS CS"])`
the two sections do NOT contain their header lines: the Experience
section content is exactly `"Dev at X"` (the body only), which does not
contain the header line `"Work Experience"`. -/
theorem classify_document_header_not_in_content :
    classify_document ["Work Experience", "Dev at X", "", "Education", "BS CS"] =
      [⟨SectionType.experience, "Dev at X"⟩, ⟨SectionType.education, "BS CS"⟩] ∧
    inStr "Work Experience" "Dev at X" = false ∧
    inStr "Education" "BS CS" = false := by
  refine ⟨by decide, by decide, by decide⟩

open SectionClassifier in
/-- C1 (amended): for every document, a section’s content block excludes
its header line and spans exactly the lines after the header up to the
line before the next detected header (or end of document): a header `h`
followed by non-header body lines and then the next header `h2` yields
the section `(classify h, body joined and stripped)` followed by the
classification of the rest; at end of document the same section is
emitted unless the body is empty.  On the spec scenario this gives two
sections, typed Experience then Education, with contents exactly
`"Dev at X"` and `"BS CS"`. -/
theorem classify_document_content_excludes_header
    (h h2 : String) (body rest2 : List String)
    (hh : classify (stripStr h) ≠ SectionType.unknown)
    (hb : ∀ l ∈ body, classify (stripStr l) = SectionType.unknown)
    (hh2 : classify (stripStr h2) ≠ SectionType.unknown) :
    classify_document (h :: (body ++ h2 :: rest2)) =
      ⟨classify (stripStr h), stripStr (joinLines body)⟩ ::
        classify_document (h2 :: rest2) ∧
    classify_document (h :: body) =
      (if body.isEmpty then []
       else [⟨classify (stripStr h), stripStr (joinLines body)⟩]) ∧
    classify_document ["Work Experience", "Dev at X", "", "Education", "BS CS"] =
      [⟨SectionType.experience, "Dev at X"⟩, ⟨SectionType.education, "BS CS"⟩] := by
  refine ⟨?_, ?_, by decide⟩
  · show classifyDocGo none [] (h :: (body ++ h2 :: rest2)) = _
    rw [classifyDocGo_header_start h _ hh,
      classifyDocGo_body (classify (stripStr h)) body [] (h2 :: rest2) hb,
      classifyDocGo_header_flush (classify (stripStr h)) ([] ++ body) h2 rest2 hh2]
    have hrhs : classify_document (h2 :: rest2) =
        classifyDocGo (some (classify (stripStr h2))) [] rest2 :=
      classifyDocGo_header_start h2 rest2 hh2
    rw [hrhs]
    rfl
  · show classifyDocGo none [] (h :: body) = _
    rw [classifyDocGo_header_start h body hh]
    have hb3 : classifyDocGo (some (classify (stripStr h))) [] body =
        classifyDocGo (some (classify (stripStr h))) body [] := by
      have := classifyDocGo_body (classify (stripStr h)) body [] [] hb
      rwa [List.append_nil, List.nil_append] at this
    rw [hb3]
    cases body with
    | nil => rfl
    | cons b bs => rfl

open SectionClassifier in
/-- Witness for the amended C1 at the spec scenario decomposed as header,
body, next header, rest. -/
theorem classify_document_content_excludes_header_witness :
    classify_document ("Work Experience" :: (["Dev at X", ""] ++ "Education" :: ["BS CS"])) =
      ⟨classify (stripStr "Work Experience"), stripStr (joinLines ["Dev at X", ""])⟩ ::
        classify_document ("Education" :: ["BS CS"]) :=
  (classify_document_content_excludes_header "Work Experience" "Education"
    ["Dev at X", ""] ["BS CS"] (by decide) (by decide) (by decide)).1

open SectionClassifier in
/-- C2 counterexample: a document in which no line is classified as a
header yields the EMPTY section list, not a single section holding the
entire input. -/
theorem classify_document_no_header_empty :
    classify_document ["hello world"] = [] := by
  decide

open SectionClassifier in
/-- C2 (amended): text appearing before the first detected header is
discarded — a run of non-header lines at the front of the document
leaves the output unchanged — and in particular a document with zero
detected headers yields the empty section list. -/
theorem classify_document_discards_leading (pre rest : List String)
    (h : ∀ l ∈ pre, classify (stripStr l) = SectionType.unknown) :
    classify_document (pre ++ rest) = classify_document rest ∧
    classify_document pre = [] := by
  refine ⟨classifyDocGo_skip_unknown pre [] rest h, ?_⟩
  have h2 : classify_document (pre ++ []) = classify_document [] :=
    classifyDocGo_skip_unknown pre [] [] h
  rwa [List.append_nil] at h2

open SectionClassifier in
/-- Witness for the amended C2: leading contact lines before the first
header are dropped, so the document classifies like its tail. -/
theorem classify_document_discards_leading_witness :
    classify_document (["John Doe", "john@email.com", ""] ++ ["Education", "BS CS"]) =
      classify_document ["Education", "BS CS"] :=
  (classify_document_discards_leading ["John Doe", "john@email.com", ""]
    ["Education", "BS CS"] (by decide)).1

/-! ## src/analyzer/skill_extractor.py -/

/-- `SkillCategory` enum of `skill_extractor.py`. -/
inductive SkillCategory where
  | programming_language
  | framework
  | database
  | cloud
  | tool
  | soft_skill
  | other
  deriving DecidableEq

namespace SkillExtractor

/-- `SkillExtractor.SKILL_DATABASE`, in dict insertion order. -/
def SKILL_DATABASE : List (SkillCategory × List String) :=
  [ (SkillCategory.programming_language,
      ["python", "javascript", "typescript", "java", "c++", "c#", "go", "rust",
       "ruby", "php", "swift", "kotlin", "scala", "r", "matlab", "perl", "lua",
       "dart", "elixir", "haskell", "clojure"]),
    (SkillCategory.framework,
      ["react", "vue", "angular", "svelte", "next.js", "nuxt", "fastapi",
       "django", "flask", "spring", "spring boot", "express", "nest.js",
       "node.js", "rails", "laravel", "asp.net", ".net", "pytorch",
       "tensorflow", "keras"]),
    (SkillCategory.database,
      ["postgresql", "mysql", "mariadb", "mongodb", "redis", "elasticsearch",
       "cassandra", "dynamodb", "sqlite", "oracle", "sql server", "neo4j",
       "cockroachdb", "influxdb"]),
    (SkillCategory.cloud,
      ["aws", "gcp", "azure", "docker", "kubernetes", "terraform", "ansible",
       "jenkins", "github actions", "gitlab ci", "circleci", "heroku",
       "vercel", "netlify", "cloudflare"]),
    (SkillCategory.tool,
      ["git", "github", "gitlab", "bitbucket", "jira", "confluence", "slack",
       "notion", "figma", "postman", "insomnia", "vscode", "intellij", "vim",
       "linux", "bash", "powershell"]),
    (SkillCategory.soft_skill,
      ["leadership", "communication", "teamwork", "problem solving",
       "critical thinking", "time management", "agile", "scrum",
       "project management"]) ]

/-- Left lookbehind `(?<![a-zA-Z0-9])` of the extract pattern: true when
there is no previous character or it is not an ASCII alphanumeric. -/
def boundaryLeftPrev : Option Char → Bool
  | none => true
  | some c => !isAlnumAscii c

/-- Right lookahead `(?![a-zA-Z0-9])`: true at end of text or when the
next character is not an ASCII alphanumeric. -/
def boundaryRightOk : List Char → Bool
  | [] => true
  | c :: _ => !isAlnumAscii c

/-- The lookbehind condition phrased on the text preceding the match. -/
def boundaryLeftOk (pre : List Char) : Bool :=
  match pre.getLast? with
  | none => true
  | some c => !isAlnumAscii c

/-- `re.search` of the boundary pattern
`(?<![a-zA-Z0-9])<skill>(?![a-zA-Z0-9])` (the skill is `re.escape`d, so it
matches literally): scan every position, carrying the previous character
for the lookbehind. -/
def boundScan (skill : List Char) : Option Char → List Char → Bool
  | prev, [] =>
    boundaryLeftPrev prev && startsWithCL skill [] && boundaryRightOk (List.drop skill.length [])
  | prev, c :: t =>
    (boundaryLeftPrev prev && startsWithCL skill (c :: t) &&
      boundaryRightOk ((c :: t).drop skill.length)) ||
    boundScan skill (some c) t

/-- Boundary-safe search of a (lowercased) skill in the lowercased text,
as performed by `SkillExtractor.extract` (the `re.IGNORECASE` flag is
inert because both sides are already lowercase). -/
def findBoundary (skill text : List Char) : Bool :=
  boundScan skill none text

/-- One entry of the list returned by `extract`. -/
structure SkillEntry where
  name : String
  category : SkillCategory
  deriving DecidableEq

/-- Python `str.upper()` (ASCII). -/
def toUpperStr (s : String) : String :=
  String.mk (s.data.map Char.toUpper)

/-- ASCII `str.title()`: an ASCII letter is uppercased when the previous
character is not a letter and lowercased otherwise (every skill name in
the database is ASCII). -/
def titleChars : Bool → List Char → List Char
  | _, [] => []
  | prevAlpha, c :: t =>
    let isA := ('a' ≤ c && c ≤ 'z') || ('A' ≤ c && c ≤ 'Z')
    (if isA then (if prevAlpha then Char.toLower c else Char.toUpper c) else c) ::
      titleChars isA t

/-- Python `str.title()` on strings. -/
def titleStr (s : String) : String :=
  String.mk (titleChars false s.data)

/-- Display name rule of `extract`:
`skill.title() if len(skill) > 3 else skill.upper()`. -/
def displayName (skill : String) : String :=
  if skill.data.length > 3 then titleStr skill else toUpperStr skill

/-- The database flattened to `(category, skill)` pairs in iteration
order (outer dict order, inner list order). -/
def dbPairs : List (SkillCategory × String) :=
  SKILL_DATABASE.flatMap (fun p => p.2.map (fun s => (p.1, s)))

/-- The loop of `SkillExtractor.extract`: for each known skill, a
boundary-safe search in the lowercased text; results are deduplicated by
the lowercased skill key with first-seen insertion order
(`found_skills` dict). -/
def extractLoop (text_lower : List Char) : List (SkillCategory × String) → List String → List SkillEntry
  | [], _ => []
  | (cat, skill) :: rest, seen =>
    if findBoundary (toLowerStr skill).data text_lower then
      if seen.contains (toLowerStr skill) then
        extractLoop text_lower rest seen
      else
        ⟨displayName skill, cat⟩ :: extractLoop text_lower rest (seen ++ [toLowerStr skill])
    else
      extractLoop text_lower rest seen

/-- `SkillExtractor.extract`. -/
def extract (text : String) : List SkillEntry :=
  extractLoop (toLowerStr text).data dbPairs []

/-- Result of `match_requirements`. -/
structure MatchResult where
  matched : List String
  missing : List String
  score : Rat
  deriving DecidableEq

/-- The per-requirement test of `match_requirements`: the lowercased
requirement is among the lowercased extracted display names, or occurs as
a raw substring of the lowercased resume text. -/
def reqMatches (extracted_names : List String) (resume_lower : String) (req : String) : Bool :=
  extracted_names.contains (toLowerStr req) || inStr (toLowerStr req) resume_lower

/-- `SkillExtractor.match_requirements`; the score is
`len(matched) / len(requirements) * 100` and `0.0` for an empty
requirements list. -/
def match_requirements (resume_text : String) (requirements : List String) : MatchResult :=
  let extracted_names := (extract resume_text).map (fun e => toLowerStr e.name)
  let resume_lower := toLowerStr resume_text
  let matched := requirements.filter (reqMatches extracted_names resume_lower)
  let missing := requirements.filter (fun req => !reqMatches extracted_names resume_lower req)
  let score : Rat :=
    if requirements.isEmpty then 0
    else (matched.length : Rat) / (requirements.length : Rat) * 100
  ⟨matched, missing, score⟩

/-- The lookbehind condition phrased on the text preceding the match,
relative to an explicit previous-character context. -/
def boundaryLeftCtx (prev : Option Char) (pre : List Char) : Bool :=
  match pre.getLast? with
  | none => boundaryLeftPrev prev
  | some d => !isAlnumAscii d

/-- Unfolding equation of `boundScan` on the empty text. -/
theorem boundScan_nil (skill : List Char) (prev : Option Char) :
    boundScan skill prev [] =
      (boundaryLeftPrev prev && startsWithCL skill [] &&
        boundaryRightOk (List.drop skill.length [])) := rfl

/-- Unfolding equation of `boundScan` on a cons text. -/
theorem boundScan_cons (skill : List Char) (prev : Option Char) (c : Char) (t : List Char) :
    boundScan skill prev (c :: t) =
      ((boundaryLeftPrev prev && startsWithCL skill (c :: t) &&
        boundaryRightOk ((c :: t).drop skill.length)) ||
       boundScan skill (some c) t) := rfl

/-- Helper for C8: moving one character of text into the left context. -/
theorem boundaryLeftCtx_cons (prev : Option Char) (c : Char) (pre : List Char) :
    boundaryLeftCtx prev (c :: pre) = boundaryLeftCtx (some c) pre := by
  cases pre with
  | nil => simp [boundaryLeftCtx, boundaryLeftPrev]
  | cons p ps =>
    obtain ⟨d, hd⟩ : ∃ d, (p :: ps).getLast? = some d :=
      ⟨(p :: ps).getLast (by simp), List.getLast?_eq_getLast _ (by simp)⟩
    simp [boundaryLeftCtx, List.getLast?_cons_cons, hd]

/-- Helper for C8: with no previous character the context condition is the
plain lookbehind condition on the preceding text. -/
theorem boundaryLeftOk_eq_ctx (pre : List Char) :
    boundaryLeftOk pre = boundaryLeftCtx none pre := by
  cases h : pre.getLast? <;> simp [boundaryLeftOk, boundaryLeftCtx, boundaryLeftPrev, h]

/-- Helper for C8: list-level prefix test characterised as an append. -/
theorem startsWithCL_iff (p s : List Char) :
    startsWithCL p s = true ↔ ∃ t, s = p ++ t := by
  induction p generalizing s with
  | nil => simp [startsWithCL]
  | cons a ps ih =>
    cases s with
    | nil =>
      simp only [startsWithCL, List.cons_append]
      constructor
      · intro h; exact absurd h (by simp)
      · rintro ⟨t, ht⟩; exact absurd ht (by simp)
    | cons c cs =>
      simp only [startsWithCL, Bool.and_eq_true, beq_iff_eq, ih, List.cons_append,
        List.cons.injEq]
      constructor
      · rintro ⟨rfl, t, rfl⟩; exact ⟨t, rfl, rfl⟩
      · rintro ⟨t, rfl, rfl⟩; exact ⟨rfl, t, rfl⟩

/-- Helper for C8: the scan succeeds iff the text splits around a literal
occurrence of the skill whose neighbours satisfy the two lookarounds. -/
theorem boundScan_iff (skill : List Char) :
    ∀ (text : List Char) (prev : Option Char),
      boundScan skill prev text = true ↔
        ∃ pre post, text = pre ++ skill ++ post ∧
          boundaryLeftCtx prev pre = true ∧ boundaryRightOk post = true := by
  intro text
  induction text with
  | nil =>
    intro prev
    constructor
    · intro h
      rw [boundScan_nil] at h
      simp only [Bool.and_eq_true] at h
      obtain ⟨⟨hl, hs⟩, hr⟩ := h
      rw [startsWithCL_iff] at hs
      obtain ⟨t, ht⟩ := hs
      have hsk : skill = [] ∧ t = [] := List.append_eq_nil.mp ht.symm
      refine ⟨[], [], by simp [hsk.1], ?_, rfl⟩
      simpa [boundaryLeftCtx] using hl
    · rintro ⟨pre, post, hsplit, hl, hr⟩
      have h1 : pre = [] ∧ skill ++ post = [] :=
        List.append_eq_nil.mp (by simpa using hsplit.symm)
      have h2 : skill = [] ∧ post = [] := List.append_eq_nil.mp h1.2
      rw [boundScan_nil]
      simp only [Bool.and_eq_true]
      refine ⟨⟨?_, ?_⟩, ?_⟩
      · simpa [boundaryLeftCtx, h1.1] using hl
      · rw [startsWithCL_iff]; exact ⟨[], by simp [h2.1]⟩
      · simp [h2.1, boundaryRightOk]
  | cons c t ih =>
    intro prev
    constructor
    · intro h
      rw [boundScan_cons, Bool.or_eq_true] at h
      rcases h with h | h
      · simp only [Bool.and_eq_true] at h
        obtain ⟨⟨hl, hs⟩, hr⟩ := h
        rw [startsWithCL_iff] at hs
        obtain ⟨r, hrr⟩ := hs
        refine ⟨[], r, by simpa using hrr, by simpa [boundaryLeftCtx] using hl, ?_⟩
        rw [hrr, List.drop_left] at hr
        exact hr
      · obtain ⟨pre, post, hsplit, hl, hr⟩ := (ih (some c)).mp h
        refine ⟨c :: pre, post, by simp [hsplit], ?_, hr⟩
        rw [boundaryLeftCtx_cons]
        exact hl
    · rintro ⟨pre, post, hsplit, hl, hr⟩
      rw [boundScan_cons, Bool.or_eq_true]
      cases pre with
      | nil =>
        left
        simp only [List.nil_append] at hsplit
        simp only [Bool.and_eq_true]
        refine ⟨⟨by simpa [boundaryLeftCtx] using hl, ?_⟩, ?_⟩
        · rw [startsWithCL_iff]; exact ⟨post, hsplit⟩
        · rw [hsplit, List.drop_left]; exact hr
      | cons c2 pre2 =>
        right
        simp only [List.cons_append] at hsplit
        injection hsplit with h1 h2
        subst h1
        rw [boundaryLeftCtx_cons] at hl
        exact (ih (some c)).mpr ⟨pre2, post, h2, hl, hr⟩

end SkillExtractor

open SkillExtractor in
/-- C8: the boundary search succeeds exactly when the skill occurs with
non-alphanumeric (or absent) neighbours, so an alphanumeric-only skill is
never extracted from inside a longer alphanumeric run: the 2-letter skill
go is not found in going and `extract "going"` reports nothing, while the
symbol-containing skill c++ is matched literally and
`extract "use c++ daily"` reports exactly C++. -/
theorem extract_word_boundary_safe :
    (∀ skill text : List Char,
      findBoundary skill text = true ↔
        ∃ pre post, text = pre ++ skill ++ post ∧
          boundaryLeftOk pre = true ∧ boundaryRightOk post = true) ∧
    findBoundary "go".data "going".data = false ∧
    extract "going" = [] ∧
    extract "use c++ daily" = [⟨"C++", SkillCategory.programming_language⟩] := by
  refine ⟨?_, by decide, by decide, by decide⟩
  intro skill text
  unfold findBoundary
  rw [boundScan_iff skill text none]
  constructor
  · rintro ⟨pre, post, hs, hl, hr⟩
    refine ⟨pre, post, hs, ?_, hr⟩
    rw [boundaryLeftOk_eq_ctx]
    exact hl
  · rintro ⟨pre, post, hs, hl, hr⟩
    refine ⟨pre, post, hs, ?_, hr⟩
    rw [boundaryLeftOk_eq_ctx] at hl
    exact hl

open SkillExtractor in
/-- C10: `match_requirements` never divides by zero: the score is
`matched / total * 100` for a non-empty requirements list and exactly `0`
for the empty list. -/
theorem match_requirements_score (text : String) (reqs : List String) :
    (match_requirements text []).score = 0 ∧
    (reqs ≠ [] →
      (match_requirements text reqs).score =
        ((match_requirements text reqs).matched.length : Rat) / (reqs.length : Rat) * 100) := by
  constructor
  · simp [match_requirements]
  · intro h
    simp [match_requirements, List.isEmpty_iff, h]

open SkillExtractor in
/-- Witness for C10 on the spec scenario requirements list. -/
theorem match_requirements_score_witness :
    (match_requirements "Python, FastAPI, PostgreSQL"
        ["Python", "FastAPI", "PostgreSQL", "Kubernetes"]).score =
      ((match_requirements "Python, FastAPI, PostgreSQL"
        ["Python", "FastAPI", "PostgreSQL", "Kubernetes"]).matched.length : Rat) /
        ((["Python", "FastAPI", "PostgreSQL", "Kubernetes"] : List String).length : Rat) * 100 :=
  (match_requirements_score "Python, FastAPI, PostgreSQL"
    ["Python", "FastAPI", "PostgreSQL", "Kubernetes"]).2 (by decide)

/-! ## src/services/feedback_analyzer.py : regex helpers

Each pre-compiled pattern of the source is translated into a matcher built
from continuation-passing combinators.  A matcher `m : List Char → Bool`
answers whether a match starts at the head of the given suffix;
`pSearch m` is `re.search` (a match exists at some position). -/

/-- Literal regex fragment followed by continuation `k`. -/
def pLit (p : String) (k : List Char → Bool) (s : List Char) : Bool :=
  startsWithCL p.data s && k (s.drop p.data.length)

/-- `\s*` followed by continuation `k` (with full backtracking, so the
result is match-existence of the greedy Python semantics). -/
def pWS (k : List Char → Bool) : List Char → Bool
  | [] => k []
  | c :: t => k (c :: t) || (isWSc c && pWS k t)

/-- `.*` (any characters except newline) followed by continuation `k`. -/
def pDot (k : List Char → Bool) : List Char → Bool
  | [] => k []
  | c :: t => k (c :: t) || (!(c = '\n') && pDot k t)

/-- End of pattern: always succeeds. -/
def pEnd : List Char → Bool := fun _ => true

/-- Alternation of literal fragments, all followed by continuation `k`. -/
def pAlts (ps : List String) (k : List Char → Bool) (s : List Char) : Bool :=
  ps.any (fun p => pLit p k s)

/-- `re.search`: try the matcher at every start position. -/
def pSearch (m : List Char → Bool) : List Char → Bool
  | [] => m []
  | c :: t => m (c :: t) || pSearch m t

/-- Scan for a word with lookaround context on both sides: the word must
occur with neighbours outside the class `cls` (or at text ends).  With
`cls := isWordChar` this is `\bword\b` for a word made of word characters;
with `cls := isHangul` it is `(?<![가-힣])word(?![가-힣])`. -/
def ctxLeftOk (cls : Char → Bool) : Option Char → Bool
  | none => true
  | some c => !cls c

/-- Right-hand lookaround for `ctxScan`. -/
def ctxRightOk (cls : Char → Bool) : List Char → Bool
  | [] => true
  | c :: _ => !cls c

/-- The scan itself, carrying the previous character. -/
def ctxScan (cls : Char → Bool) (word : List Char) : Option Char → List Char → Bool
  | prev, [] =>
    ctxLeftOk cls prev && startsWithCL word [] && ctxRightOk cls (List.drop word.length [])
  | prev, c :: t =>
    (ctxLeftOk cls prev && startsWithCL word (c :: t) &&
      ctxRightOk cls ((c :: t).drop word.length)) ||
    ctxScan cls word (some c) t

/-- `re.search(r"\bword\b", s)` for a Korean word (Hangul syllables are
word characters in Python's unicode `\w`). -/
def searchWB (word : String) (s : List Char) : Bool :=
  ctxScan isWordChar word.data none s

/-! Matcher variants returning the matched text (`match.group()`),
needed where the source stores the matched substring in a warning. -/

/-- Literal fragment, match-text version. -/
def mLit (p : String) (k : List Char → Option (List Char)) (s : List Char) : Option (List Char) :=
  if startsWithCL p.data s then (k (s.drop p.data.length)).map (fun m => p.data ++ m)
  else none

/-- Greedy `\s*`, match-text version: consume as much whitespace as lets
the continuation succeed, preferring longer runs (Python greedy `\s*`). -/
def mWS (k : List Char → Option (List Char)) : List Char → Option (List Char)
  | [] => k []
  | c :: t =>
    if isWSc c then
      match mWS k t with
      | some m => some (c :: m)
      | none => k (c :: t)
    else k (c :: t)

/-- End of pattern, match-text version. -/
def mEnd : List Char → Option (List Char) := fun _ => some []

/-- Ordered alternation, match-text version (first alternative that
matches at this position wins, as in Python). -/
def mAlt (ms : List (List Char → Option (List Char))) (s : List Char) : Option (List Char) :=
  ms.findSome? (fun f => f s)

/-- `re.search`, match-text version: leftmost match wins. -/
def mSearch (m : List Char → Option (List Char)) : List Char → Option (List Char)
  | [] => m []
  | c :: t =>
    match m (c :: t) with
    | some r => some r
    | none => mSearch m t

/-! ## src/services/feedback_analyzer.py : family-context check -/

/-- `WarningItem` response schema (the fields used by the checks). -/
structure WarningItem where
  type : String
  severity : String
  message : String
  detected_text : String
  suggestion : String
  deriving DecidableEq

namespace FeedbackAnalyzer

/-- `_SENTENCE_SPLIT_PATTERN = re.compile(r"[.!?]\s*")` terminator class. -/
def isTermCh (c : Char) : Bool :=
  c = '.' || c = '!' || c = '?'

/-- `re.split(r"[.!?]\s*", answer)`: split at each terminator, greedily
consuming following whitespace as part of the separator.  The Bool flag
records whether we are inside the `\s*` tail of a separator match. -/
def splitGo : Bool → List Char → List Char → List (List Char)
  | _, acc, [] => [acc.reverse]
  | skipping, acc, c :: t =>
    if skipping && isWSc c then splitGo true acc t
    else if isTermCh c then acc.reverse :: splitGo true [] t
    else splitGo false (c :: acc) t

/-- Sentence list of an answer (Python list of strings, kept as char
lists). -/
def splitSentences (answer : String) : List (List Char) :=
  splitGo false [] answer.data

/-- `family_keywords_long` (matched by plain substring containment). -/
def family_keywords_long : List String :=
  ["아버지", "어머니", "부모님", "부친", "모친", "할아버지", "할머니"]

/-- `_FAMILY_KEYWORDS_SHORT`: word-boundary-safe patterns paired with the
keyword they report. -/
def FAMILY_KEYWORDS_SHORT : List ((List Char → Bool) × String) :=
  [ (searchWB "형", "형"),
    (searchWB "누나", "누나"),
    (searchWB "오빠", "오빠"),
    (searchWB "언니", "언니"),
    (fun s => ctxScan isHangul "동생".data none s, "동생") ]

/-- `_PERSONAL_CONTEXT_PATTERNS` (one matcher per compiled pattern, in
source order; alternation inside a pattern becomes disjunction). -/
def PERSONAL_CONTEXT_PATTERNS : List (List Char → Bool) :=
  [ fun s => pSearch (pAlts ["직업이", "직업을", "직업은"] pEnd) s ||
      pSearch (pLit "일을" (pWS (pLit "하시" pEnd))) s ||
      pSearch (pLit "회사에서" (pWS (pLit "일" pEnd))) s ||
      pSearch (pAlts ["사업을", "운영하시", "근무하시"] pEnd) s,
    fun s => pSearch (pAlts ["경제적", "가난했", "부유했"] pEnd) s ||
      pSearch (pLit "어려운" (pWS (pLit "환경" pEnd))) s ||
      pSearch (pLit "넉넉한" (pWS (pLit "환경" pEnd))) s ||
      pSearch (pLit "형편이" pEnd) s,
    fun s => pSearch (pAlts ["학력", "학벌"] pEnd) s ||
      pSearch (pLit "대학을" (pWS (pLit "나오" pEnd))) s ||
      pSearch (pLit "졸업하신" pEnd) s,
    fun s => pSearch (pAlts ["재산", "유산", "물려받", "상속"] pEnd) s,
    fun s => pSearch (pLit "사회적" (pWS (pLit "지위" pEnd))) s ||
      pSearch (pAlts ["인맥", "연줄"] pEnd) s,
    fun s => pSearch (pAlts ["돌아가시", "별세하", "사망하"] pEnd) s ]

/-- `_EXCEPTION_PATTERNS` (figurative / idiomatic / values phrasing), in
source order. -/
def EXCEPTION_PATTERNS : List (List Char → Bool) :=
  [ pSearch (pLit "아버지는" (pWS (pLit "산" pEnd))),
    fun s => pSearch (pLit "어머니는" (pWS (pAlts ["강", "바다"] pEnd))) s,
    pSearch (pLit "아버지" (pWS (pLit "같은" pEnd))),
    pSearch (pLit "어머니" (pWS (pLit "같은" pEnd))),
    pSearch (pLit "부모" (pWS (pLit "같은" pEnd))),
    pSearch (pLit "형" (pWS (pLit "같은" pEnd))),
    pSearch (pLit "누나" (pWS (pLit "같은" pEnd))),
    pSearch (pLit "동생" (pWS (pLit "같은" pEnd))),
    fun s => pSearch (pLit "가족" (pWS (pAlts ["같은", "처럼"] pEnd))) s,
    fun s => pSearch (pLit "형제" (pWS (pAlts ["같은", "처럼"] pEnd))) s,
    fun s => pSearch (pLit "고향" (pWS (pAlts ["같은", "처럼"] pEnd))) s,
    pSearch (pLit "인심" pEnd),
    pSearch (pLit "사람" (pWS (pLit "사는" (pWS (pLit "정" pEnd))))),
    pSearch (pLit "정이" (pWS (pLit "많" pEnd))),
    pSearch (pLit "따뜻한" (pWS (pLit "마음" pEnd))),
    pSearch (pLit "가훈" pEnd),
    pSearch (pLit "가치관" pEnd),
    pSearch (pLit "교훈" pEnd),
    pSearch (pLit "좌우명" pEnd),
    pSearch (pLit "신념" pEnd),
    pSearch (pLit "철학" pEnd),
    pSearch (pLit "마음가짐" pEnd),
    fun s => pSearch (pLit "삶의" (pWS (pAlts ["자세", "태도", "방식"] pEnd))) s,
    fun s => pSearch (pAlts ["사랑", "봉사", "나눔", "배려", "존중", "정직", "성실",
      "책임", "감사"] (pDot (pLit "바탕" pEnd))) s,
    fun s => pSearch (pLit "주신" (pWS (pAlts ["말씀", "가르침"] (pDot (pLit "바탕" pEnd))))) s,
    fun s => pSearch (pAlts ["말씀", "가르침"] (pDot (pLit "따라" pEnd))) s,
    fun s => pSearch (pLit "물려받은" (pWS (pAlts ["정신", "마음", "가치"] pEnd))) s ]

/-- The leftmost match of `_DIRECT_FAMILY_PATTERNS`
(`가정환경이|가정\s*형편이|집안\s*형편`), returning the matched text. -/
def directFamilyMatch (s : List Char) : Option (List Char) :=
  mSearch (mAlt
    [ mLit "가정환경이" mEnd,
      mLit "가정" (mWS (mLit "형편이" mEnd)),
      mLit "집안" (mWS (mLit "형편" mEnd)) ]) s

/-- The sentence-level high-severity warning built at lines 533-539 of
`feedback_analyzer.py`: quoted context truncated to 50 characters. -/
def familyWarning (sentence : List Char) : WarningItem :=
  let st := stripChars sentence
  ⟨"blind_violation", "high",
    "⚠️ 블라인드 채용 위반: 가족 관계/배경이 언급되어 있습니다",
    String.mk (st.take 50) ++ (if st.length > 50 then "..." else ""),
    "가족의 직업, 영향, 배경 등에 대한 언급을 삭제하거나 다른 표현으로 대체하세요."⟩

/-- One iteration of the sentence loop of `_check_family_context`:
skip short sentences, then exceptions, then require a family keyword
(long substrings first, short boundary-safe keywords second) and a
personal-context pattern to produce the violation warning. -/
def sentenceViolation (sentence : List Char) : Option WarningItem :=
  if (stripChars sentence).length < 10 then none
  else if EXCEPTION_PATTERNS.any (fun m => m sentence) then none
  else
    let found_family_word : Option String :=
      match family_keywords_long.find? (fun w => containsCL w.data sentence) with
      | some w => some w
      | none => (FAMILY_KEYWORDS_SHORT.find? (fun p => p.1 sentence)).map (fun p => p.2)
    match found_family_word with
    | none => none
    | some _ =>
      if PERSONAL_CONTEXT_PATTERNS.any (fun m => m sentence) then
        some (familyWarning sentence)
      else none

/-- The sentence loop with its early `return warnings` on the first
violating sentence. -/
def familySentenceScan : List (List Char) → Option WarningItem
  | [] => none
  | s :: rest =>
    match sentenceViolation s with
    | some w => some w
    | none => familySentenceScan rest

/-- The trailing direct-pattern loop of `_check_family_context` (a single
pattern with `break`, hence at most one warning). -/
def directFamilyCheck (answer : String) : List WarningItem :=
  match directFamilyMatch answer.data with
  | some m =>
    [⟨"blind_violation", "high",
      "⚠️ 블라인드 채용 위반: 가정환경/집안 형편에 대한 언급이 있습니다",
      String.mk m, "가정환경 관련 언급을 삭제하세요."⟩]
  | none => []

/-- `FeedbackAnalyzer._check_family_context`: the sentence loop returns
immediately with its single warning; only otherwise does the direct
pattern loop run. -/
def check_family_context (answer : String) : List WarningItem :=
  match familySentenceScan (splitSentences answer) with
  | some w => [w]
  | none => directFamilyCheck answer

end FeedbackAnalyzer

open FeedbackAnalyzer in
/-- Helper: the direct-pattern loop iterates a single compiled pattern and
breaks after the first match, so it emits at most one warning. -/
theorem directFamilyCheck_length_le (answer : String) :
    (directFamilyCheck answer).length ≤ 1 := by
  unfold directFamilyCheck
  split <;> simp

open FeedbackAnalyzer in
/-- C3 counterexample: on an answer whose first sentence triggers the
sentence-level family-context warning AND which contains the direct
pattern 가정환경이, `_check_family_context` returns only the single
sentence-level warning — the direct-pattern check is skipped by the early
return, so it is not evaluated on every call. -/
theorem family_direct_check_skipped :
    (check_family_context "아버지의 직업이 공무원입니다. 가정환경이 어렵습니다.").length = 1 ∧
    (check_family_context "아버지의 직업이 공무원입니다. 가정환경이 어렵습니다.").all
      (fun w => w.message = "⚠️ 블라인드 채용 위반: 가족 관계/배경이 언급되어 있습니다") = true ∧
    directFamilyCheck "아버지의 직업이 공무원입니다. 가정환경이 어렵습니다." ≠ [] := by
  refine ⟨by decide, by decide, by decide⟩

open FeedbackAnalyzer in
/-- C3 (amended): the direct-pattern check for explicit
family-circumstances phrasing runs only when the sentence loop produced no
violation warning; when a sentence-level warning is produced the call
returns exactly that one warning and the direct check is skipped.  The
direct check itself emits at most one warning, and every call emits at
most one warning in total. -/
theorem check_family_context_direct_only_if_no_sentence_warning (answer : String) :
    (check_family_context answer).length ≤ 1 ∧
    (directFamilyCheck answer).length ≤ 1 ∧
    (familySentenceScan (splitSentences answer) = none →
      check_family_context answer = directFamilyCheck answer) ∧
    (∀ w, familySentenceScan (splitSentences answer) = some w →
      check_family_context answer = [w]) := by
  refine ⟨?_, directFamilyCheck_length_le answer, ?_, ?_⟩
  · unfold check_family_context
    split
    · simp
    · exact directFamilyCheck_length_le answer
  · intro h
    simp [check_family_context, h]
  · intro w h
    simp [check_family_context, h]

open FeedbackAnalyzer in
/-- Witness for the amended C3 at an answer with no sentence-level
violation but a direct 가정환경이 mention. -/
theorem check_family_context_direct_witness :
    check_family_context "가정환경이 어렵다고 생각합니다" =
      directFamilyCheck "가정환경이 어렵다고 생각합니다" :=
  (check_family_context_direct_only_if_no_sentence_warning
    "가정환경이 어렵다고 생각합니다").2.2.1 (by decide)

open FeedbackAnalyzer in
/-- C6: a sentence matching any exception pattern (figurative or
values/philosophy phrasing) is fully exempt: it never produces the
sentence-level family-context violation warning, regardless of family
keywords or personal-context patterns it may also contain. -/
theorem exception_sentence_never_warns (s : List Char)
    (h : EXCEPTION_PATTERNS.any (fun m => m s) = true) :
    sentenceViolation s = none := by
  unfold sentenceViolation
  simp [h]

open FeedbackAnalyzer in
/-- Witness for C6: the sentence 아버지 같은 분을 만나 직업이 무엇인지
배웠습니다 matches the figurative exception 아버지 같은 while also
containing the family keyword 아버지 and the personal-context pattern
직업이, and produces no warning. -/
theorem exception_sentence_never_warns_witness :
    EXCEPTION_PATTERNS.any
      (fun m => m "아버지 같은 분을 만나 직업이 무엇인지 배웠습니다".data) = true ∧
    containsCL "아버지".data "아버지 같은 분을 만나 직업이 무엇인지 배웠습니다".data = true ∧
    sentenceViolation "아버지 같은 분을 만나 직업이 무엇인지 배웠습니다".data = none :=
  ⟨by decide, by decide, exception_sentence_never_warns _ (by decide)⟩

/-! ## src/services/feedback_analyzer.py : core-value / NCS scoring -/

/-- `CoreValueScore` response schema. -/
structure CoreValueScore where
  value : String
  score : Nat
  found : Bool
  evidence : String
  suggestion : String
  deriving DecidableEq

/-- `NCSCompetencyScore` response schema. -/
structure NCSCompetencyScore where
  code : String
  name : String
  importance : String
  score : Nat
  found : Bool
  evidence : String
  suggestion : String
  deriving DecidableEq

/-- One entry of `position_data["ncs_competencies"]` as consumed by
`analyze_ncs_competencies` (fields read with `.get(key, default)`); the
position file itself is external data, out of analysis scope. -/
structure NcsEntry where
  name : String
  code : String
  importance : String
  deriving DecidableEq

namespace FeedbackAnalyzer

/-- `value_keywords` dict of `analyze_core_values`. -/
def value_keywords : List (String × List String) :=
  [ ("고객중심", ["고객", "수요자", "국민", "서비스", "만족", "편의", "사용자", "이용자"]),
    ("고객만족", ["고객", "만족", "서비스", "편의", "이용자", "수요자"]),
    ("상생", ["상생", "협력", "협업", "파트너", "동반성장", "함께", "공생", "상호"]),
    ("협력", ["협력", "협업", "팀워크", "소통", "함께", "공동", "파트너십"]),
    ("혁신", ["혁신", "변화", "창의", "개선", "새로운", "도전", "발전", "디지털", "AI", "스마트"]),
    ("창의", ["창의", "창조", "새로운", "아이디어", "혁신", "독창"]),
    ("전문성", ["전문", "역량", "지식", "기술", "숙련", "경험", "노하우", "전문가"]),
    ("청렴", ["청렴", "윤리", "투명", "공정", "정직", "신뢰", "도덕", "준법"]),
    ("정직", ["정직", "진실", "성실", "신뢰", "투명"]),
    ("신뢰", ["신뢰", "믿음", "정직", "성실", "책임"]),
    ("책임", ["책임", "의무", "사명", "역할", "담당", "맡은"]),
    ("안전", ["안전", "보안", "예방", "사고", "리스크", "위험관리"]),
    ("소통", ["소통", "커뮤니케이션", "대화", "공유", "협의", "논의"]),
    ("도전", ["도전", "시도", "극복", "목표", "성장", "발전"]),
    ("열정", ["열정", "열심", "헌신", "몰입", "적극", "의지"]),
    ("성장", ["성장", "발전", "향상", "진보", "개발", "학습"]),
    ("봉사", ["봉사", "기여", "공헌", "나눔", "사회적"]),
    ("공익", ["공익", "공공", "국민", "사회", "기여"]),
    ("존중", ["존중", "배려", "이해", "포용", "다양성"]),
    ("효율", ["효율", "생산성", "최적화", "절감", "개선"]) ]

/-- `ncs_keywords` dict of `analyze_ncs_competencies`. -/
def ncs_keywords : List (String × List String) :=
  [ ("의사소통능력", ["의사소통", "소통", "커뮤니케이션", "발표", "보고", "문서작성", "경청", "설득", "협의", "전달"]),
    ("수리능력", ["수리", "계산", "통계", "데이터", "분석", "수치", "정량", "그래프", "엑셀", "숫자"]),
    ("문제해결능력", ["문제해결", "해결", "분석", "원인", "대안", "개선", "극복", "대처", "창의", "혁신"]),
    ("자기개발능력", ["자기개발", "학습", "성장", "역량", "노력", "공부", "자격증", "교육", "훈련", "발전"]),
    ("자원관리능력", ["자원관리", "예산", "일정", "시간관리", "인력", "물자", "효율", "관리", "배분", "조달"]),
    ("대인관계능력", ["대인관계", "협력", "팀워크", "갈등", "조율", "리더십", "팔로워십", "네트워크", "관계", "조정"]),
    ("정보능력", ["정보", "데이터", "시스템", "컴퓨터", "IT", "분석", "수집", "활용", "디지털", "DB"]),
    ("기술능력", ["기술", "전문", "숙련", "도구", "장비", "시스템", "개발", "설계", "구현", "운영"]),
    ("조직이해능력", ["조직", "기관", "회사", "문화", "비전", "미션", "전략", "목표", "부서", "업무"]),
    ("직업윤리", ["윤리", "청렴", "책임", "성실", "정직", "준법", "공정", "도덕", "신뢰", "윤리의식"]) ]

/-- `ncs_suggestions` dict of `analyze_ncs_competencies`. -/
def ncs_suggestions : List (String × String) :=
  [ ("의사소통능력", "팀 프로젝트에서 의견 조율, 발표 경험, 보고서 작성 등 소통 역량을 보여주는 구체적 사례를 추가하세요. 예: \x27주간 회의에서 진행 상황을 보고하고, 팀원들의 피드백을 반영하여...\x27"),
    ("수리능력", "데이터 분석, 통계 활용, 수치 기반 의사결정 경험을 구체적으로 기술하세요. 예: \x27매출 데이터를 분석하여 전년 대비 15% 성장 원인을 파악하고...\x27"),
    ("문제해결능력", "어려운 상황을 극복한 경험을 상황-문제-해결-결과(STAR) 구조로 작성하세요. 예: \x27프로젝트 중 예상치 못한 기술적 문제가 발생했을 때, 대안을 분석하고...\x27"),
    ("자기개발능력", "자격증 취득, 교육 이수, 자기주도 학습 경험을 구체적으로 기술하세요. 예: \x27업무 역량 향상을 위해 Python 온라인 강좌를 수료하고, 실무에 적용하여...\x27"),
    ("자원관리능력", "예산 관리, 일정 조율, 인력 배분 등 자원을 효율적으로 관리한 경험을 추가하세요. 예: \x27한정된 예산 내에서 우선순위를 설정하여 핵심 과제에 집중한 결과...\x27"),
    ("대인관계능력", "팀워크, 갈등 해결, 협력 경험을 구체적으로 작성하세요. 예: \x27팀원 간 의견 충돌 시 각자의 입장을 경청하고 중재하여 합의점을 도출했습니다...\x27"),
    ("정보능력", "정보 수집, 데이터 활용, IT 시스템 활용 경험을 추가하세요. 예: \x27업무 효율화를 위해 엑셀 매크로를 활용하여 반복 작업을 자동화하고...\x27"),
    ("기술능력", "전문 기술, 도구 활용, 시스템 운영 경험을 구체적으로 기술하세요. 예: \x27AutoCAD를 활용한 도면 작성, Python 데이터 분석 등 실무 기술을 적용하여...\x27"),
    ("조직이해능력", "지원 기관의 미션, 비전, 최근 사업에 대한 이해를 보여주세요. 예: \x27기관의 디지털 전환 전략에 공감하며, 제 IT 역량을 활용하여 기여하고 싶습니다...\x27"),
    ("직업윤리", "책임감, 성실성, 청렴성을 보여주는 경험을 추가하세요. 예: \x27맡은 업무에 대한 책임감으로 야근도 마다하지 않고 기한 내 완수했습니다...\x27") ]

/-- `dict.get(name, [name])`: keyword set for a value/competency name,
falling back to the name itself as the sole keyword. -/
def lookupKeywords (tbl : List (String × List String)) (name : String) : List String :=
  match tbl.find? (fun p => p.1 = name) with
  | some p => p.2
  | none => [name]

/-- `ncs_suggestions.get(name, default)`. -/
def lookupSuggestion (name : String) : String :=
  match ncs_suggestions.find? (fun p => p.1 = name) with
  | some p => p.2
  | none => "\x27" ++ name ++ "\x27 관련 구체적인 경험을 추가하세요."

/-- The inner evidence search of both scorers: for a matched keyword, take
the first sentence containing it (case-sensitively) with length > 10, and
append its stripped form unless the raw sentence is already recorded. -/
def evidenceStep (sentences : List (List Char)) (keyword : String)
    (parts : List (List Char)) : List (List Char) :=
  match sentences.find? (fun s => containsCL keyword.data s && decide (s.length > 10)) with
  | some s => if parts.contains s then parts else parts ++ [stripChars s]
  | none => parts

/-- The keyword loop of `analyze_core_values`
(`if keyword.lower() in answer_lower`), returning
(`found_keywords`, `evidence_parts`). -/
def scanValueKeywords (answer : String) (keywords : List String) :
    List String × List (List Char) :=
  let answer_lower := toLowerStr answer
  let sentences := splitSentences answer
  keywords.foldl (fun acc kw =>
    if inStr (toLowerStr kw) answer_lower then
      (acc.1 ++ [kw], evidenceStep sentences kw acc.2)
    else acc) ([], [])

/-- The keyword loop of `analyze_ncs_competencies`
(`if keyword.lower() in answer_lower or keyword in answer`). -/
def scanNcsKeywords (answer : String) (keywords : List String) :
    List String × List (List Char) :=
  let answer_lower := toLowerStr answer
  let sentences := splitSentences answer
  keywords.foldl (fun acc kw =>
    if inStr (toLowerStr kw) answer_lower || inStr kw answer then
      (acc.1 ++ [kw], evidenceStep sentences kw acc.2)
    else acc) ([], [])

/-- The matched keywords of one core value (first component of the scan). -/
def coreMatchedKeywords (answer value : String) : List String :=
  (scanValueKeywords answer (lookupKeywords value_keywords (stripStr value))).1

/-- The matched keywords of one NCS competency. -/
def ncsMatchedKeywords (answer name : String) : List String :=
  (scanNcsKeywords answer (lookupKeywords ncs_keywords name)).1

/-- The 3/5/7/9 step function on the number of matched keywords. -/
def stepScore (n : Nat) : Nat :=
  if n ≥ 3 then 9 else if n ≥ 2 then 7 else if n ≥ 1 then 5 else 3

/-- Truncation of the first evidence sentence:
`evidence_parts[0][:100] + ("..." if len(evidence_parts[0]) > 100 else "")`. -/
def truncateEvidence (e : List Char) : String :=
  String.mk (e.take 100) ++ (if e.length > 100 then "..." else "")

/-- The body of the `for value in core_values` loop of
`analyze_core_values`. -/
def scoreCoreValue (answer value : String) : CoreValueScore :=
  let value_normalized := stripStr value
  let scanned := scanValueKeywords answer (lookupKeywords value_keywords value_normalized)
  let found_keywords := scanned.1
  let evidence_parts := scanned.2
  let score0 := stepScore found_keywords.length
  let score := if inStr value_normalized answer then min 10 (score0 + 1) else score0
  let found : Bool := decide (found_keywords.length > 0)
  let evidence :=
    if found then
      match evidence_parts with
      | e :: _ => truncateEvidence e
      | [] => ""
    else ""
  let suggestion :=
    if found then ""
    else "\x27" ++ value_normalized ++ "\x27 관련 경험이나 가치관을 추가해 보세요."
  ⟨value_normalized, score, found, evidence, suggestion⟩

/-- `FeedbackAnalyzer.analyze_core_values` (the loop mapped over the
supplied core-value list). -/
def analyze_core_values (answer : String) (core_values : List String) :
    List CoreValueScore :=
  core_values.map (scoreCoreValue answer)

/-- The body of the `for ncs in ncs_competencies` loop of
`analyze_ncs_competencies`: the step function, the required-but-absent
override to 2, and — unlike the core-value loop — no verbatim-name
bonus. -/
def scoreNcsCompetency (answer : String) (ncs : NcsEntry) : NCSCompetencyScore :=
  let scanned := scanNcsKeywords answer (lookupKeywords ncs_keywords ncs.name)
  let found_keywords := scanned.1
  let evidence_parts := scanned.2
  let base0 := stepScore found_keywords.length
  let base_score := if ncs.importance = "필수" ∧ found_keywords.length = 0 then 2 else base0
  let found : Bool := decide (found_keywords.length > 0)
  let evidence :=
    if found then
      match evidence_parts with
      | e :: _ => truncateEvidence e
      | [] => ""
    else ""
  let suggestion :=
    if found then ""
    else
      if ncs.importance = "필수" then "[필수 역량] " ++ lookupSuggestion ncs.name
      else lookupSuggestion ncs.name
  ⟨ncs.code, ncs.name, ncs.importance, base_score, found, evidence, suggestion⟩

/-- `FeedbackAnalyzer.analyze_ncs_competencies`, modelled on the supplied
competency list (the source reads it from the external position file and
returns `[]` when that file or its list is absent). -/
def analyze_ncs_competencies (answer : String) (ncs_competencies : List NcsEntry) :
    List NCSCompetencyScore :=
  ncs_competencies.map (scoreNcsCompetency answer)

end FeedbackAnalyzer

/-- Helper: a string starting with a non-empty string is non-empty. -/
theorem append_ne_empty_left (a b : String) (h : a.data ≠ []) : a ++ b ≠ "" := by
  intro he
  have hd : (a ++ b).data = [] := by rw [he]
  rw [String.data_append] at hd
  exact h (List.append_eq_nil.mp hd).1

/-- Helper: a three-part concatenation with non-empty head is non-empty. -/
theorem append3_ne_empty (a m b : String) (h : a.data ≠ []) : a ++ m ++ b ≠ "" := by
  refine append_ne_empty_left _ _ ?_
  rw [String.data_append]
  intro hx
  exact h (List.append_eq_nil.mp hx).1

open FeedbackAnalyzer in
/-- Helper: every templated NCS suggestion is a non-empty string. -/
theorem lookupSuggestion_ne_empty (name : String) : lookupSuggestion name ≠ "" := by
  unfold lookupSuggestion
  cases h : ncs_suggestions.find? (fun p => p.1 = name) with
  | none =>
    exact append3_ne_empty _ _ _ (by decide)
  | some p =>
    have hall : ∀ q ∈ ncs_suggestions, q.2 ≠ "" := by decide
    exact hall p (List.mem_of_find?_eq_some h)

open FeedbackAnalyzer in
/-- Helper: flag structure of one core-value score. -/
theorem scoreCoreValue_flags (answer value : String) :
    ((scoreCoreValue answer value).found = true ↔ coreMatchedKeywords answer value ≠ []) ∧
    ((scoreCoreValue answer value).suggestion ≠ "" ↔ (scoreCoreValue answer value).found = false) ∧
    ((scoreCoreValue answer value).evidence ≠ "" → (scoreCoreValue answer value).found = true) := by
  refine ⟨?_, ?_, ?_⟩
  · simp only [scoreCoreValue, coreMatchedKeywords, decide_eq_true_eq]
    exact List.length_pos
  · have hne : "\x27" ++ stripStr value ++ "\x27 관련 경험이나 가치관을 추가해 보세요." ≠ "" :=
      append3_ne_empty _ _ _ (by decide)
    simp only [scoreCoreValue]
    cases hb : decide (((scanValueKeywords answer
        (lookupKeywords value_keywords (stripStr value))).1).length > 0) with
    | true => simp [hb]
    | false => simp [hb, hne]
  · simp only [scoreCoreValue]
    cases hb : decide (((scanValueKeywords answer
        (lookupKeywords value_keywords (stripStr value))).1).length > 0) with
    | true => simp [hb]
    | false => simp [hb]

open FeedbackAnalyzer in
/-- Helper: flag structure of one NCS competency score. -/
theorem scoreNcsCompetency_flags (answer : String) (ncs : NcsEntry) :
    ((scoreNcsCompetency answer ncs).found = true ↔ ncsMatchedKeywords answer ncs.name ≠ []) ∧
    ((scoreNcsCompetency answer ncs).suggestion ≠ "" ↔ (scoreNcsCompetency answer ncs).found = false) ∧
    ((scoreNcsCompetency answer ncs).evidence ≠ "" → (scoreNcsCompetency answer ncs).found = true) := by
  refine ⟨?_, ?_, ?_⟩
  · simp only [scoreNcsCompetency, ncsMatchedKeywords, decide_eq_true_eq]
    exact List.length_pos
  · have hs : lookupSuggestion ncs.name ≠ "" := lookupSuggestion_ne_empty ncs.name
    have hs2 : "[필수 역량] " ++ lookupSuggestion ncs.name ≠ "" :=
      append_ne_empty_left _ _ (by decide)
    simp only [scoreNcsCompetency]
    cases hb : decide (((scanNcsKeywords answer
        (lookupKeywords ncs_keywords ncs.name)).1).length > 0) with
    | true => simp [hb]
    | false =>
      by_cases hi : ncs.importance = "필수" <;> simp [hb, hi, hs, hs2]
  · simp only [scoreNcsCompetency]
    cases hb : decide (((scanNcsKeywords answer
        (lookupKeywords ncs_keywords ncs.name)).1).length > 0) with
    | true => simp [hb]
    | false => simp [hb]

open FeedbackAnalyzer in
/-- C4 counterexample: for `analyze_core_values("소통", ["소통"])` the
single score has `found = true` (the keyword 소통 matched) but an EMPTY
evidence field, because no sentence containing the keyword is longer than
10 characters — so evidence is not populated iff found. -/
theorem core_value_evidence_empty_though_found :
    (scoreCoreValue "소통" "소통").found = true ∧
    (scoreCoreValue "소통" "소통").evidence = "" ∧
    analyze_core_values "소통" ["소통"] = [scoreCoreValue "소통" "소통"] := by
  refine ⟨by decide, by decide, by decide⟩

open FeedbackAnalyzer in
/-- C4 (amended): in both `analyze_core_values` and
`analyze_ncs_competencies`, `found == (len(matched_keywords) > 0)` and the
suggestion field is non-empty iff `found` is false; but the evidence field
is only non-empty IF found (it is the first matching sentence longer than
10 characters, truncated to 100 characters with an ellipsis) and may be
empty even when found, when no matching sentence longer than 10
characters exists. -/
theorem analyze_scores_flag_invariants (answer : String) (core_values : List String)
    (ncs_competencies : List NcsEntry) :
    (∀ s ∈ analyze_core_values answer core_values,
      (s.suggestion ≠ "" ↔ s.found = false) ∧ (s.evidence ≠ "" → s.found = true)) ∧
    (∀ s ∈ analyze_ncs_competencies answer ncs_competencies,
      (s.suggestion ≠ "" ↔ s.found = false) ∧ (s.evidence ≠ "" → s.found = true)) ∧
    (∀ value, (scoreCoreValue answer value).found = true ↔
      coreMatchedKeywords answer value ≠ []) ∧
    (∀ ncs : NcsEntry, (scoreNcsCompetency answer ncs).found = true ↔
      ncsMatchedKeywords answer ncs.name ≠ []) := by
  refine ⟨?_, ?_, ?_, ?_⟩
  · intro s hs
    obtain ⟨v, _, rfl⟩ := List.mem_map.mp hs
    exact ⟨(scoreCoreValue_flags answer v).2.1, (scoreCoreValue_flags answer v).2.2⟩
  · intro s hs
    obtain ⟨n, _, rfl⟩ := List.mem_map.mp hs
    exact ⟨(scoreNcsCompetency_flags answer n).2.1, (scoreNcsCompetency_flags answer n).2.2⟩
  · intro v
    exact (scoreCoreValue_flags answer v).1
  · intro n
    exact (scoreNcsCompetency_flags answer n).1

open FeedbackAnalyzer in
/-- Witness for the amended C4 at a concrete answer and value list. -/
theorem analyze_scores_flag_invariants_witness :
    ((scoreCoreValue "협업을 중시합니다" "협력").suggestion ≠ "" ↔
      (scoreCoreValue "협업을 중시합니다" "협력").found = false) :=
  ((analyze_scores_flag_invariants "협업을 중시합니다" ["협력"] []).1
    (scoreCoreValue "협업을 중시합니다" "협력") (by decide)).1

open FeedbackAnalyzer in
/-- C5 counterexample: the NCS competency 의사소통능력 appears verbatim in
the answer and two of its keywords match (의사소통, 소통), so the step
function gives 7 and the claimed +1 name bonus would give
`min 10 (7+1) = 8`; the code returns 7 — NCS scoring has no verbatim-name
bonus. -/
theorem ncs_no_name_bonus :
    inStr "의사소통능력" "저는 의사소통능력이 뛰어납니다" = true ∧
    (ncsMatchedKeywords "저는 의사소통능력이 뛰어납니다" "의사소통능력").length = 2 ∧
    stepScore 2 = 7 ∧
    (scoreNcsCompetency "저는 의사소통능력이 뛰어납니다"
      ⟨"의사소통능력", "COMM", "중요"⟩).score = 7 := by
  refine ⟨by decide, by decide, by decide, by decide⟩

open FeedbackAnalyzer in
/-- C5 (amended): the +1 verbatim-name bonus, capped at 10, applies to
core-value scoring only; NCS competency scores are the plain 3/5/7/9 step
function, with the required-but-absent override to 2 and no name bonus. -/
theorem score_name_bonus_core_only (answer value : String) (ncs : NcsEntry) :
    (inStr (stripStr value) answer = true →
      (scoreCoreValue answer value).score =
        min 10 (stepScore (coreMatchedKeywords answer value).length + 1)) ∧
    (inStr (stripStr value) answer = false →
      (scoreCoreValue answer value).score =
        stepScore (coreMatchedKeywords answer value).length) ∧
    ((scoreNcsCompetency answer ncs).score =
      if ncs.importance = "필수" ∧ ncsMatchedKeywords answer ncs.name = [] then 2
      else stepScore (ncsMatchedKeywords answer ncs.name).length) := by
  refine ⟨?_, ?_, ?_⟩
  · intro h
    simp [scoreCoreValue, coreMatchedKeywords, h]
  · intro h
    simp [scoreCoreValue, coreMatchedKeywords, h]
  · by_cases hi : ncs.importance = "필수" ∧ ncsMatchedKeywords answer ncs.name = []
    · have hlen : ((scanNcsKeywords answer (lookupKeywords ncs_keywords ncs.name)).1).length = 0 := by
        have := hi.2
        unfold ncsMatchedKeywords at this
        simp [this]
      simp [scoreNcsCompetency, hi, hi.1, hlen]
    · rw [if_neg hi]
      unfold scoreNcsCompetency ncsMatchedKeywords
      by_cases h1 : ncs.importance = "필수"
      · have h2 : (scanNcsKeywords answer (lookupKeywords ncs_keywords ncs.name)).1 ≠ [] := by
          intro hx
          exact hi ⟨h1, by unfold ncsMatchedKeywords; exact hx⟩
        have h3 : ¬(ncs.importance = "필수" ∧
            ((scanNcsKeywords answer (lookupKeywords ncs_keywords ncs.name)).1).length = 0) := by
          rintro ⟨_, hlen0⟩
          exact h2 (List.length_eq_zero.mp hlen0)
        simp only [h3, if_neg]
        simp
      · simp [h1]

open FeedbackAnalyzer in
/-- Witness for the amended C5: the value 소통 appears verbatim in the
answer 소통, one keyword matches, and the score is
`min 10 (stepScore 1 + 1) = 6`. -/
theorem score_name_bonus_core_only_witness :
    (scoreCoreValue "소통" "소통").score =
      min 10 (stepScore (coreMatchedKeywords "소통" "소통").length + 1) :=
  (score_name_bonus_core_only "소통" "소통" ⟨"", "", ""⟩).1 (by decide)

/-! ## src/services/feedback_analyzer.py : paragraph normalizer -/

namespace FeedbackAnalyzer

/-- `paragraph_starters` of `_format_model_answer_paragraphs`. -/
def paragraph_starters : List String :=
  ["이러한 경험", "이를 계기로", "이후", "또한", "한편", "나아가", "앞으로",
   "입사 후", "특히", "결과적으로", "이를 통해", "이처럼"]

/-- Greedy `\s+` then the starter, tried from the longest whitespace run
down (Python backtracking); on success returns the text following the
starter. -/
def tryWS (starter rest : List Char) : Nat → Option (List Char)
  | 0 => none
  | k + 1 =>
    if startsWithCL starter (rest.drop (k + 1)) then
      some (rest.drop (k + 1 + starter.length))
    else tryWS starter rest k

/-- Matching `\s+({starter})` at the position right after a terminator. -/
def subAfterTerm (starter rest : List Char) : Option (List Char) :=
  tryWS starter rest ((rest.takeWhile isWSc).length)

/-- `re.sub(rf"([.!?])\s+({starter})", r"\1\n\n\2", result)`: scan left to
right; at each match emit the terminator, a blank line, and the starter,
and continue after the match.  The `Nat` fuel only bounds recursion depth
(it is always at least the text length at every call site, so the
fuel-exhausted branch is never taken). -/
def subStarterF (starter : List Char) : Nat → List Char → List Char
  | 0, l => l
  | _ + 1, [] => []
  | fuel + 1, c :: rest =>
    if isTermCh c then
      match subAfterTerm starter rest with
      | some rest2 => c :: '\n' :: '\n' :: (starter ++ subStarterF starter fuel rest2)
      | none => c :: subStarterF starter fuel rest
    else c :: subStarterF starter fuel rest

/-- `FeedbackAnalyzer._format_model_answer_paragraphs`: empty input and
input already containing a line break are returned unchanged; otherwise
each starter pattern is substituted in turn. -/
def format_model_answer_paragraphs (model_answer : String) : String :=
  if model_answer = "" then model_answer
  else if inStr "\n" model_answer then model_answer
  else
    String.mk (paragraph_starters.foldl
      (fun acc st => subStarterF st.data acc.length acc) model_answer.data)

/-- One substitution pass either leaves the text unchanged or leaves a
line break in it (the replacement text contains one). -/
theorem subStarterF_eq_or_newline (starter : List Char) :
    ∀ (fuel : Nat) (l : List Char),
      subStarterF starter fuel l = l ∨ '\n' ∈ subStarterF starter fuel l := by
  intro fuel
  induction fuel with
  | zero => intro l; left; rfl
  | succ fuel ih =>
    intro l
    cases l with
    | nil => left; rfl
    | cons c rest =>
      by_cases hterm : isTermCh c = true
      · rw [subStarterF]
        rw [if_pos hterm]
        cases hm : subAfterTerm starter rest with
        | some rest2 => right; simp
        | none =>
          rcases ih rest with h | h
          · left; simp [h]
          · right; simp [h]
      · rw [subStarterF, if_neg hterm]
        rcases ih rest with h | h
        · left; simp [h]
        · right; simp [h]

/-- One substitution pass preserves the presence of a line break. -/
theorem subStarterF_newline_mem (starter : List Char) :
    ∀ (fuel : Nat) (l : List Char), '\n' ∈ l → '\n' ∈ subStarterF starter fuel l := by
  intro fuel
  induction fuel with
  | zero => intro l h; exact h
  | succ fuel ih =>
    intro l h
    cases l with
    | nil => exact h
    | cons c rest =>
      rcases List.mem_cons.mp h with rfl | hmem
      · by_cases hterm : isTermCh '\n' = true
        · rw [subStarterF, if_pos hterm]
          cases hm : subAfterTerm starter rest with
          | some rest2 => simp
          | none => simp
        · rw [subStarterF, if_neg hterm]; simp
      · by_cases hterm : isTermCh c = true
        · rw [subStarterF, if_pos hterm]
          cases hm : subAfterTerm starter rest with
          | some rest2 => simp
          | none => simp [ih rest hmem]
        · rw [subStarterF, if_neg hterm]
          simp [ih rest hmem]

/-- The full starter fold either returns its input unchanged or leaves a
line break in the result. -/
theorem starterFold_eq_or_newline :
    ∀ (starters : List String) (l : List Char),
      starters.foldl (fun acc st => subStarterF st.data acc.length acc) l = l ∨
      '\n' ∈ starters.foldl (fun acc st => subStarterF st.data acc.length acc) l := by
  intro starters
  induction starters with
  | nil => intro l; left; rfl
  | cons st rest ih =>
    intro l
    simp only [List.foldl_cons]
    rcases subStarterF_eq_or_newline st.data l.length l with h1 | h1
    · rw [h1]; exact ih l
    · rcases ih (subStarterF st.data l.length l) with h2 | h2
      · rw [h2]; right; exact h1
      · right; exact h2

/-- Helper: a single-character needle is contained iff it is a member. -/
theorem containsCL_singleton (a : Char) :
    ∀ (l : List Char), a ∈ l → containsCL [a] l = true := by
  intro l h
  induction l with
  | nil => cases h
  | cons c t ih =>
    rcases List.mem_cons.mp h with rfl | hmem
    · simp [containsCL, startsWithCL]
    · simp [containsCL, ih hmem]

/-- Helper: a string one of whose characters is a line break contains
the line-break needle. -/
theorem inStr_newline_of_mem (t : String) (h : '\n' ∈ t.data) : inStr "\n" t = true := by
  have hd : "\n".data = ['\n'] := rfl
  unfold inStr
  rw [hd]
  exact containsCL_singleton '\n' t.data h

end FeedbackAnalyzer

open FeedbackAnalyzer in
/-- C9: the paragraph normalizer is idempotent — applying it twice yields
the same result as applying it once; moreover any input already
containing a line break, and the empty string, are returned unchanged. -/
theorem format_paragraphs_idempotent (s : String) :
    format_model_answer_paragraphs (format_model_answer_paragraphs s) =
      format_model_answer_paragraphs s ∧
    (inStr "\n" s = true → format_model_answer_paragraphs s = s) ∧
    format_model_answer_paragraphs "" = "" := by
  have hnoop : ∀ t : String, inStr "\n" t = true → format_model_answer_paragraphs t = t := by
    intro t ht
    unfold format_model_answer_paragraphs
    by_cases he : t = ""
    · rw [if_pos he]
    · rw [if_neg he, if_pos ht]
  refine ⟨?_, hnoop s, rfl⟩
  by_cases he : s = ""
  · subst he; rfl
  · by_cases hn : inStr "\n" s = true
    · rw [hnoop s hn]
      exact hnoop s hn
    · have hform : format_model_answer_paragraphs s =
        String.mk (paragraph_starters.foldl
          (fun acc st => subStarterF st.data acc.length acc) s.data) := by
        unfold format_model_answer_paragraphs
        rw [if_neg he, if_neg (by simpa using hn)]
      rcases starterFold_eq_or_newline paragraph_starters s.data with h | h
      · have hfs : format_model_answer_paragraphs s = s := by
          rw [hform, h]
        rw [hfs]
        exact hfs
      · have hdata : (format_model_answer_paragraphs s).data = paragraph_starters.foldl
            (fun acc st => subStarterF st.data acc.length acc) s.data := by
          rw [hform]
        apply hnoop
        apply inStr_newline_of_mem
        rw [hdata]
        exact h

open FeedbackAnalyzer in
/-- Witness for C9: an input that already contains a line break is
returned unchanged. -/
theorem format_paragraphs_idempotent_witness :
    format_model_answer_paragraphs "첫 문단입니다.\n\n또한 둘째 문단입니다." =
      "첫 문단입니다.\n\n또한 둘째 문단입니다." :=
  (format_paragraphs_idempotent "첫 문단입니다.\n\n또한 둘째 문단입니다.").2.1 (by decide)

/-! ## src/services/feedback_analyzer.py : question similarity -/

/-- `SimilarQuestion` response schema (similarity is a Python float,
modelled as an exact rational). -/
structure SimilarQuestion where
  year : Nat
  half : String
  question : String
  similarity : Rat
  char_limit : Nat
  matched_keywords : List String
  deriving DecidableEq

/-- One entry of `data["questions"]` in a knowledge-db year file, with the
fields read by `find_similar_questions` (`.get` with defaults). -/
structure PastQuestion where
  text : String
  keywords : List String
  ncs_categories : List String
  char_limit : Nat
  deriving DecidableEq

/-- A parsed knowledge-db year file: `metadata.verified` (default true),
`half`, and the question list.  Files that are absent or fail to parse are
`none` in the corpus map. -/
structure YearFile where
  verified : Bool
  half : String
  questions : List PastQuestion
  deriving DecidableEq

namespace FeedbackAnalyzer

/-- `keyword_patterns` of `_extract_question_keywords`. -/
def keyword_patterns : List String :=
  [ "지원동기", "입사 후", "장단점", "강점", "약점", "경험", "사례",
    "갈등", "협력", "팀워크", "리더십", "문제해결", "성과", "실패",
    "극복", "도전", "목표", "계획", "가치관", "인재상", "직무",
    "의사소통", "소통", "문제해결", "자기개발", "대인관계", "갈등관리",
    "조직이해", "기술", "정보", "수리", "윤리", "책임",
    "팀", "프로젝트", "업무", "성공", "실패", "어려움", "노력",
    "결과", "성장", "학습", "개선", "혁신" ]

/-- Python `set` built by successive `add`s, modelled as first-occurrence
deduplication (only size and membership of the set are observable in the
similarity score; CPython set iteration order is unspecified). -/
def dedupFirst (l : List String) : List String :=
  l.foldl (fun acc x => if acc.contains x then acc else acc ++ [x]) []

/-- `FeedbackAnalyzer._extract_question_keywords`: registry terms
contained in the question (literally, or case-insensitively). -/
def extract_question_keywords (question : String) : List String :=
  dedupFirst (keyword_patterns.filter
    (fun kw => inStr kw question || inStr (toLowerStr kw) (toLowerStr question)))

/-- `FeedbackAnalyzer._calculate_similarity`: weight 1 for a prompt
keyword found in the past question text, 0.8 (= 4/5) for one found only
in the past keyword/NCS tag set; similarity is
`matched_weight / max(total, len(all_past_keywords)/2) * 100`, clamped to
100, with an early `(0, matched)` return when there are no prompt
keywords.  (The source also loops over `all_past_keywords` after the main
loop, but that loop's body only `continue`s, so it is omitted here.) -/
def calculate_similarity (question_keywords : List String) (past_question : String)
    (past_keywords past_ncs : List String) : Rat × List String :=
  let all_past_keywords := dedupFirst (past_keywords ++ past_ncs)
  let step := question_keywords.foldl
    (fun (acc : Rat × List String) kw =>
      if inStr kw past_question || inStr (toLowerStr kw) (toLowerStr past_question) then
        (acc.1 + 1, acc.2 ++ [kw])
      else if all_past_keywords.contains kw then
        (acc.1 + 8 / 10, acc.2 ++ [kw])
      else acc)
    ((0 : Rat), ([] : List String))
  let total_weight : Rat := question_keywords.length
  if total_weight = 0 then (0, step.2)
  else
    let similarity := step.1 / max total_weight ((all_past_keywords.length : Rat) / 2) * 100
    (min similarity 100, step.2)

/-- One question record of one year file: kept iff `similarity >= 30`. -/
def mkSimilarEntry (year : Nat) (half : String) (qkw : List String)
    (q : PastQuestion) : Option SimilarQuestion :=
  let r := calculate_similarity qkw q.text q.keywords q.ncs_categories
  if 30 ≤ r.1 then some ⟨year, half, q.text, r.1, q.char_limit, r.2⟩ else none

/-- The year/question collection loop of `find_similar_questions`: the 5
most recent years, skipping absent files and files with
`metadata.verified == false`. -/
def collectSimilar (qkw : List String) (corpus : Nat → Option YearFile) :
    List SimilarQuestion :=
  [2025, 2024, 2023, 2022, 2021].flatMap (fun year =>
    match corpus year with
    | none => []
    | some f =>
      if f.verified then f.questions.filterMap (mkSimilarEntry year f.half qkw)
      else [])

/-- Stable insertion for descending similarity: an element is placed
before the first entry whose similarity does not exceed it, so equal
similarities keep their original relative order — the behaviour of
Python's stable `list.sort(key=..., reverse=True)`. -/
def orderedInsertDesc (x : SimilarQuestion) : List SimilarQuestion → List SimilarQuestion
  | [] => [x]
  | y :: ys =>
    if y.similarity ≤ x.similarity then x :: y :: ys
    else y :: orderedInsertDesc x ys

/-- Stable descending-by-similarity sort
(`similar.sort(key=lambda x: x.similarity, reverse=True)`). -/
def sortDescBySim : List SimilarQuestion → List SimilarQuestion
  | [] => []
  | x :: xs => orderedInsertDesc x (sortDescBySim xs)

/-- `FeedbackAnalyzer.find_similar_questions`: empty or absent question
yields `[]`; otherwise collect entries with similarity at least 30 from
the corpus of the uppercased organization, sort stably by descending
similarity, and return the top 5. -/
def find_similar_questions (question : Option String) (organization : String)
    (corpus : String → Nat → Option YearFile) : List SimilarQuestion :=
  match question with
  | none => []
  | some q =>
    if q = "" then []
    else
      let qkw := extract_question_keywords q
      let collected := collectSimilar qkw (corpus (SkillExtractor.toUpperStr organization))
      (sortDescBySim collected).take 5

end FeedbackAnalyzer

namespace FeedbackAnalyzer

/-- Helper for C7: membership through stable insertion. -/
theorem mem_orderedInsertDesc (z x : SimilarQuestion) :
    ∀ l, z ∈ orderedInsertDesc x l ↔ z = x ∨ z ∈ l := by
  intro l
  induction l with
  | nil => simp [orderedInsertDesc]
  | cons y ys ih =>
    by_cases h : y.similarity ≤ x.similarity
    · simp [orderedInsertDesc, h]
    · simp only [orderedInsertDesc, if_neg h, List.mem_cons, ih]
      tauto

/-- Helper for C7: the sort permutes nothing in or out. -/
theorem mem_sortDescBySim (z : SimilarQuestion) :
    ∀ l, z ∈ sortDescBySim l ↔ z ∈ l := by
  intro l
  induction l with
  | nil => simp [sortDescBySim]
  | cons x xs ih =>
    simp [sortDescBySim, mem_orderedInsertDesc, ih]

/-- Helper for C7: stable insertion preserves descending order. -/
theorem pairwise_orderedInsertDesc (x : SimilarQuestion) :
    ∀ l, List.Pairwise (fun a b => b.similarity ≤ a.similarity) l →
      List.Pairwise (fun a b => b.similarity ≤ a.similarity) (orderedInsertDesc x l) := by
  intro l
  induction l with
  | nil => intro _; simp [orderedInsertDesc]
  | cons y ys ih =>
    intro h
    rcases List.pairwise_cons.mp h with ⟨hy, hys⟩
    by_cases hc : y.similarity ≤ x.similarity
    · rw [orderedInsertDesc, if_pos hc]
      refine List.pairwise_cons.mpr ⟨?_, h⟩
      intro z hz
      rcases List.mem_cons.mp hz with rfl | hz2
      · exact hc
      · exact le_trans (hy z hz2) hc
    · rw [orderedInsertDesc, if_neg hc]
      refine List.pairwise_cons.mpr ⟨?_, ih hys⟩
      intro z hz
      rcases (mem_orderedInsertDesc z x ys).mp hz with rfl | hz2
      · exact le_of_lt (lt_of_not_le hc)
      · exact hy z hz2

/-- Helper for C7: the sort output is descending in similarity. -/
theorem pairwise_sortDescBySim :
    ∀ l, List.Pairwise (fun a b => b.similarity ≤ a.similarity) (sortDescBySim l) := by
  intro l
  induction l with
  | nil => simp [sortDescBySim]
  | cons x xs ih => exact pairwise_orderedInsertDesc x _ ih

/-- Helper for C7 (stability): insertion never reorders entries of any
fixed similarity value, because an element only moves past entries of
strictly greater similarity. -/
theorem filter_orderedInsertDesc (v : Rat) (x : SimilarQuestion) :
    ∀ l, (orderedInsertDesc x l).filter (fun r => decide (r.similarity = v)) =
      if x.similarity = v then
        x :: l.filter (fun r => decide (r.similarity = v))
      else l.filter (fun r => decide (r.similarity = v)) := by
  intro l
  induction l with
  | nil =>
    by_cases hx : x.similarity = v <;> simp [orderedInsertDesc, List.filter, hx]
  | cons y ys ih =>
    by_cases hc : y.similarity ≤ x.similarity
    · rw [orderedInsertDesc, if_pos hc]
      by_cases hx : x.similarity = v <;> simp [List.filter, hx]
    · rw [orderedInsertDesc, if_neg hc]
      by_cases hx : x.similarity = v
      · have hy : ¬(y.similarity = v) := by
          intro hyv
          exact hc (by rw [hyv, hx])
        simp [List.filter, hx, hy, ih]
      · by_cases hy : y.similarity = v <;> simp [List.filter, hx, hy, ih]

/-- Helper for C7 (stability): for every similarity value, the sort keeps
the entries of that exact similarity in their original order. -/
theorem filter_sortDescBySim (v : Rat) :
    ∀ l, (sortDescBySim l).filter (fun r => decide (r.similarity = v)) =
      l.filter (fun r => decide (r.similarity = v)) := by
  intro l
  induction l with
  | nil => rfl
  | cons x xs ih =>
    rw [sortDescBySim, filter_orderedInsertDesc]
    by_cases hx : x.similarity = v <;> simp [List.filter, hx, ih]

/-- Helper for C7: a kept entry passed the 30% floor. -/
theorem mkSimilarEntry_similarity (year : Nat) (half : String) (qkw : List String)
    (q : PastQuestion) (r : SimilarQuestion)
    (h : mkSimilarEntry year half qkw q = some r) : 30 ≤ r.similarity := by
  simp only [mkSimilarEntry] at h
  split at h
  · next hc =>
      cases h
      exact hc
  · next => cases h

/-- Helper for C7: every collected entry passed the 30% floor. -/
theorem collectSimilar_floor (qkw : List String) (corpus : Nat → Option YearFile)
    (r : SimilarQuestion) (h : r ∈ collectSimilar qkw corpus) : 30 ≤ r.similarity := by
  unfold collectSimilar at h
  rcases List.mem_flatMap.mp h with ⟨year, _, hin⟩
  cases hy : corpus year with
  | none =>
    rw [hy] at hin
    replace hin : r ∈ ([] : List SimilarQuestion) := hin
    cases hin
  | some f =>
    rw [hy] at hin
    replace hin : r ∈ (if f.verified = true then
        f.questions.filterMap (mkSimilarEntry year f.half qkw) else []) := hin
    by_cases hv : f.verified = true
    · rw [if_pos hv] at hin
      rcases List.mem_filterMap.mp hin with ⟨q, _, hq⟩
      exact mkSimilarEntry_similarity year f.half qkw q r hq
    · rw [if_neg hv] at hin
      cases hin

end FeedbackAnalyzer

open FeedbackAnalyzer in
/-- C7: `find_similar_questions` returns at most 5 results, every
returned entry has similarity at least 30, the result list is descending
in similarity, and ties keep the original corpus order: for every
similarity value, the returned entries of that exact similarity are an
initial run of the collected entries of that similarity, in collection
order (Python stable sort).  An absent question yields no results. -/
theorem find_similar_questions_props (q : String) (org : String)
    (corpus : String → Nat → Option YearFile) :
    (find_similar_questions (some q) org corpus).length ≤ 5 ∧
    (find_similar_questions (some q) org corpus).all
      (fun r => decide (30 ≤ r.similarity)) = true ∧
    List.Pairwise (fun a b => b.similarity ≤ a.similarity)
      (find_similar_questions (some q) org corpus) ∧
    (∀ v : Rat, ∃ t,
      (collectSimilar (extract_question_keywords q)
          (corpus (SkillExtractor.toUpperStr org))).filter
        (fun r => decide (r.similarity = v)) =
      (find_similar_questions (some q) org corpus).filter
        (fun r => decide (r.similarity = v)) ++ t) ∧
    find_similar_questions none org corpus = [] := by
  by_cases hq : q = ""
  · have hfind : find_similar_questions (some q) org corpus = [] := by
      simp only [find_similar_questions, if_pos hq]
    rw [hfind]
    refine ⟨by simp, by simp, by simp, ?_, rfl⟩
    intro v
    exact ⟨(collectSimilar (extract_question_keywords q)
      (corpus (SkillExtractor.toUpperStr org))).filter
        (fun r => decide (r.similarity = v)), by simp⟩
  · have hfind : find_similar_questions (some q) org corpus =
        (sortDescBySim (collectSimilar (extract_question_keywords q)
          (corpus (SkillExtractor.toUpperStr org)))).take 5 := by
      simp only [find_similar_questions, if_neg hq]
    refine ⟨?_, ?_, ?_, ?_, rfl⟩
    · rw [hfind]
      exact List.length_take_le 5 _
    · rw [hfind]
      refine List.all_eq_true.mpr ?_
      intro r hr
      simp only [decide_eq_true_eq]
      exact collectSimilar_floor _ _ r
        ((mem_sortDescBySim r _).mp (List.mem_of_mem_take hr))
    · rw [hfind]
      exact List.Pairwise.sublist (List.take_sublist 5 _) (pairwise_sortDescBySim _)
    · intro v
      rw [hfind]
      refine ⟨((sortDescBySim (collectSimilar (extract_question_keywords q)
        (corpus (SkillExtractor.toUpperStr org)))).drop 5).filter
          (fun r => decide (r.similarity = v)), ?_⟩
      calc (collectSimilar (extract_question_keywords q)
              (corpus (SkillExtractor.toUpperStr org))).filter
            (fun r => decide (r.similarity = v))
          = (sortDescBySim (collectSimilar (extract_question_keywords q)
              (corpus (SkillExtractor.toUpperStr org)))).filter
            (fun r => decide (r.similarity = v)) :=
            (filter_sortDescBySim v _).symm
        _ = ((sortDescBySim (collectSimilar (extract_question_keywords q)
              (corpus (SkillExtractor.toUpperStr org)))).take 5 ++
             (sortDescBySim (collectSimilar (extract_question_keywords q)
              (corpus (SkillExtractor.toUpperStr org)))).drop 5).filter
            (fun r => decide (r.similarity = v)) := by
            rw [List.take_append_drop]
        _ = ((sortDescBySim (collectSimilar (extract_question_keywords q)
              (corpus (SkillExtractor.toUpperStr org)))).take 5).filter
            (fun r => decide (r.similarity = v)) ++
            ((sortDescBySim (collectSimilar (extract_question_keywords q)
              (corpus (SkillExtractor.toUpperStr org)))).drop 5).filter
            (fun r => decide (r.similarity = v)) := by
            rw [List.filter_append]
